import Mathlib

/-!
Shallow embedding of the `hire-crew` feature-request-to-PR worker
(`worker.py` and `tools/repo_tools.py`) and proofs about the claims of
its specification.

Strings are modelled as `List Char` (`pyStr` injects Lean string
literals).  Python-level operations (`str.find`, `str.replace`,
`str.strip`, slicing) are modelled as executable functions on
`List Char`.
-/

namespace HireCrew

/-- `s.data` of a Lean string literal: the Python string as a `List Char`. -/
def pyStr (s : String) : List Char := s.data

/-- The whitespace characters of Python's `str.strip` / regex `\s`
(ASCII fragment). -/
def pySpace (c : Char) : Bool :=
  c = ' ' || c = '\t' || c = '\n' || c = '\r' || c = '\x0b' || c = '\x0c'

/-- Python `str.strip()`: drop whitespace from both ends. -/
def pyStrip (s : List Char) : List Char :=
  ((s.dropWhile pySpace).reverse.dropWhile pySpace).reverse

/-- `pyStartsWith pat s`: `s` starts with `pat` (Python `s.startswith(pat)`). -/
def pyStartsWith : List Char → List Char → Bool
  | [], _ => true
  | _ :: _, [] => false
  | a :: as, b :: bs => a = b && pyStartsWith as bs

/-- Case-insensitive variant of `pyStartsWith`, for `re.IGNORECASE`. -/
def ciStartsWith : List Char → List Char → Bool
  | [], _ => true
  | _ :: _, [] => false
  | a :: as, b :: bs => a.toLower = b.toLower && ciStartsWith as bs

/-- Python `s.find(sub, start)`: the least index `i ≥ start` at which
`sub` occurs in `s`, as `Option Nat` (`none` for Python's `-1`). -/
def pyFind (s sub : List Char) (start : Nat) : Option Nat :=
  (((List.range (s.length + 1)).filter
      (fun i => decide (start ≤ i) && pyStartsWith sub (s.drop i))).head?)

/-- One execution of the bounded-replacement `while` loop of
`CreatePullRequestTool._run` (repo_tools.py, lines 173-179):

    while remaining and (idx := updated.find(find_text, start)) != -1:
        updated = updated[:idx] + replace_text + updated[idx+len(find_text):]
        start = idx + len(replace_text)
        remaining -= 1
-/
def surgicalLoop (findT replT : List Char) :
    Nat → Nat → List Char → List Char
  | 0, _, updated => updated
  | remaining + 1, start, updated =>
    match pyFind updated findT start with
    | none => updated
    | some idx =>
      surgicalLoop findT replT remaining (idx + replT.length)
        (updated.take idx ++ replT ++ updated.drop (idx + findT.length))

/-- The number of replacements actually performed by `surgicalLoop`
(same recursion, counting instrumentation). -/
def surgicalLoopCount (findT replT : List Char) :
    Nat → Nat → List Char → Nat
  | 0, _, _ => 0
  | remaining + 1, start, updated =>
    match pyFind updated findT start with
    | none => 0
    | some idx =>
      surgicalLoopCount findT replT remaining (idx + replT.length)
        (updated.take idx ++ replT ++ updated.drop (idx + findT.length)) + 1

/-- Python `s.replace(find, repl)` when `find` is empty: the replacement
is inserted before every character and at the end. -/
def replaceAllEmpty (replT : List Char) : List Char → List Char
  | [] => replT
  | c :: rest => replT ++ c :: replaceAllEmpty replT rest

/-- Python `s.replace(find, repl)` for non-empty `find`: replace every
non-overlapping occurrence, scanning left to right.  The `fuel`
argument makes the recursion structural; with non-empty `findT` every
step consumes at least one character, so `fuel = s.length` (as passed
by `replaceAllNe`) never runs out. -/
def replaceAllNeAux (findT replT : List Char) : Nat → List Char → List Char
  | _, [] => []
  | 0, s => s
  | fuel + 1, c :: rest =>
    if pyStartsWith findT (c :: rest) then
      replT ++ replaceAllNeAux findT replT fuel (rest.drop (findT.length - 1))
    else
      c :: replaceAllNeAux findT replT fuel rest

/-- Python `s.replace(find, repl)` for non-empty `find`. -/
def replaceAllNe (findT replT s : List Char) : List Char :=
  replaceAllNeAux findT replT s.length s

/-- Python `original.replace(find_text, replace_text)`. -/
def pyReplaceAll (s findT replT : List Char) : List Char :=
  if findT = [] then replaceAllEmpty replT s else replaceAllNe findT replT s

/-- The replacement application of `CreatePullRequestTool._run`
(repo_tools.py, lines 170-179): `count = None` replaces all
occurrences, `count = n` runs the bounded loop starting at cursor 0. -/
def applyReplacement (original findT replT : List Char) :
    Option Nat → List Char
  | none => pyReplaceAll original findT replT
  | some c => surgicalLoop findT replT c 0 original

/-- One surgical find/replace edit (`SurgicalReplacement` in
repo_tools.py): `count = none` models Python's `None` (replace all). -/
structure SurgicalRep where
  path : String
  find_text : List Char
  replace_text : List Char
  count : Option Nat
deriving DecidableEq, Repr

/-- One `repo.update_file` call issued by the surgical-edit loop. -/
structure CommitEvt where
  path : String
  message : List Char
  content : List Char
deriving DecidableEq, Repr

/-- The surgical-replacement loop of `CreatePullRequestTool._run`
(repo_tools.py, lines 142-192), with the branch content threaded as an
association list (a commit updates the branch, so a later edit of the
same path sees the earlier edit).  For each edit: an empty path is the
invalid-item error; the file is read from the working branch, else the
base branch, else the call fails naming the path; the replacement is
applied; an unchanged result skips the commit; otherwise the file is
committed with the title suffixed by " (surgical edit)".  Returns the
list of commits made, in order. -/
def runReplacements (title : List Char)
    (baseFiles : List (String × List Char)) :
    List (String × List Char) → List SurgicalRep → List CommitEvt →
      Except String (List CommitEvt)
  | _, [], acc => Except.ok acc.reverse
  | branchFiles, rep :: rest, acc =>
    if rep.path = "" then
      Except.error "Invalid replacement item: require 'path', 'find_text', 'replace_text'"
    else
      match branchFiles.lookup rep.path <|> baseFiles.lookup rep.path with
      | none =>
        Except.error ("Target file not found for replacement: " ++ rep.path)
      | some original =>
        let updated :=
          applyReplacement original rep.find_text rep.replace_text rep.count
        if updated = original then
          runReplacements title baseFiles branchFiles rest acc
        else
          runReplacements title baseFiles ((rep.path, updated) :: branchFiles)
            rest
            ({ path := rep.path, message := title ++ pyStr " (surgical edit)",
               content := updated } :: acc)

/-- Numeric value of a digit string (Python `int(...)` on the digits
captured by `\d+`). -/
def digitsToNat (ds : List Char) : Nat :=
  ds.foldl (fun n c => 10 * n + (c.toNat - 48)) 0

/-- Attempt of the regex `PR\s+created:\s*(https?://[^\s]+)`
(IGNORECASE) at a fixed position `i` of `s`; returns the capture group
(worker.py, line 45).  `\s+` must be non-empty; both whitespace runs
are maximal (backtracking cannot help, since the following literal
starts with a non-whitespace character); `[^\s]+` is the non-empty
maximal run of non-whitespace characters. -/
def matchPrCreatedAt (s : List Char) (i : Nat) : Option (List Char) :=
  let t := s.drop i
  if ciStartsWith (pyStr "pr") t then
    let t1 := t.drop 2
    let ws := t1.takeWhile pySpace
    if ws = [] then none
    else
      let t2 := t1.dropWhile pySpace
      if ciStartsWith (pyStr "created:") t2 then
        let t3 := (t2.drop 8).dropWhile pySpace
        let schemeLen : Option Nat :=
          if ciStartsWith (pyStr "https://") t3 then some 8
          else if ciStartsWith (pyStr "http://") t3 then some 7
          else none
        match schemeLen with
        | none => none
        | some k =>
          let run := (t3.drop k).takeWhile (fun c => !pySpace c)
          if run = [] then none else some (t3.take k ++ run)
      else none
  else none

/-- `re.search` of the `PR created:` pattern: the match at the leftmost
position where one exists. -/
def searchPrCreated (s : List Char) : Option (List Char) :=
  (List.range (s.length + 1)).findSome? (matchPrCreatedAt s)

/-- Attempt of the regex `https?://github\.com/[^\s]+/pull/\d+`
(worker.py, line 49) at a fixed position `i` of `s`; returns the
matched text.  The greedy `[^\s]+` backtracks from the right, so the
match uses the largest split point `j ≥ 1` inside the maximal
non-whitespace run after `github.com/` at which `/pull/` followed by at
least one digit occurs; `\d+` then takes the maximal digit run. -/
def matchGithubPrAt (s : List Char) (i : Nat) : Option (List Char) :=
  let t := s.drop i
  let schemeLen : Option Nat :=
    if pyStartsWith (pyStr "https://github.com/") t then some 19
    else if pyStartsWith (pyStr "http://github.com/") t then some 18
    else none
  match schemeLen with
  | none => none
  | some k =>
    let run := (t.drop k).takeWhile (fun c => !pySpace c)
    let js := (List.range (run.length + 1)).filter (fun j =>
      decide (1 ≤ j) && pyStartsWith (pyStr "/pull/") (run.drop j) &&
        !((run.drop (j + 6)).takeWhile Char.isDigit).isEmpty)
    match js.getLast? with
    | none => none
    | some j =>
      some (t.take k ++ run.take j ++ pyStr "/pull/" ++
        (run.drop (j + 6)).takeWhile Char.isDigit)

/-- `re.search` of the GitHub pull-request URL pattern. -/
def searchGithubPr (s : List Char) : Option (List Char) :=
  (List.range (s.length + 1)).findSome? (matchGithubPrAt s)

/-- `_extract_pr_url` (worker.py, lines 41-50): empty text yields
`none`; otherwise prefer the `PR created: <url>` capture, falling back
to the first GitHub pull-request URL anywhere in the text. -/
def extract_pr_url (text : List Char) : Option (List Char) :=
  if text = [] then none
  else
    match searchPrCreated text with
    | some url => some url
    | none => searchGithubPr text

/-- The `([^/]+)/([^/]+)/pull/(\d+)` part of `_parse_pr_url`'s regex,
applied to the text following the scheme-and-host prefix: a non-empty
slash-free owner, `/`, a non-empty slash-free repo, the literal
`/pull/`, and a non-empty maximal digit run (trailing text ignored,
since `re.match` does not anchor the end). -/
def parsePrPath (t : List Char) : Option (List Char × List Char × Nat) :=
  let owner := t.takeWhile (fun c => c ≠ '/')
  if owner = [] then none
  else
    match t.dropWhile (fun c => c ≠ '/') with
    | [] => none
    | _ :: t2 =>
      let repo := t2.takeWhile (fun c => c ≠ '/')
      if repo = [] then none
      else
        let t3 := t2.dropWhile (fun c => c ≠ '/')
        if pyStartsWith (pyStr "/pull/") t3 then
          let ds := (t3.drop 6).takeWhile Char.isDigit
          if ds = [] then none else some (owner, repo, digitsToNat ds)
        else none

/-- `_parse_pr_url` (worker.py, lines 108-114): `re.match` of
`https?://github\.com/([^/]+)/([^/]+)/pull/(\d+)` anchored at the start
(the end is not anchored), returning `(owner, repo, number)`. -/
def parse_pr_url (prUrl : List Char) : Option (List Char × List Char × Nat) :=
  if pyStartsWith (pyStr "https://github.com/") prUrl then
    parsePrPath (prUrl.drop 19)
  else if pyStartsWith (pyStr "http://github.com/") prUrl then
    parsePrPath (prUrl.drop 18)
  else none

/-- Written from the spec's words, for comparison with the code's URL
logic: the pull-request URL grammar
`https://<host>/<owner>/<repo>/pull/<number>`, accepted as the whole
string, with non-empty slash-free host, owner and repo and a non-empty
digit string as number. -/
def specPrUrlGrammar (s : List Char) : Bool :=
  if pyStartsWith (pyStr "https://") s then
    let t := s.drop 8
    let host := t.takeWhile (fun c => c ≠ '/')
    if host = [] then false
    else
      match t.dropWhile (fun c => c ≠ '/') with
      | [] => false
      | _ :: t2 =>
        let owner := t2.takeWhile (fun c => c ≠ '/')
        if owner = [] then false
        else
          match t2.dropWhile (fun c => c ≠ '/') with
          | [] => false
          | _ :: t3 =>
            let repo := t3.takeWhile (fun c => c ≠ '/')
            if repo = [] then false
            else
              let t4 := t3.dropWhile (fun c => c ≠ '/')
              if pyStartsWith (pyStr "/pull/") t4 then
                let num := t4.drop 6
                !num.isEmpty && num.all Char.isDigit
              else false
  else false

/-- The field set of one `_update_row` call (worker.py, lines 79-81):
`none` means the key is absent from the update dict; for `pr_url` and
`error` a present key may carry Python `None`, hence the nested
`Option`. -/
structure UpdateValues where
  status : Option (List Char) := none
  agent_run_at : Option (List Char) := none
  pr_url : Option (Option (List Char)) := none
  agent_output : Option (List (String × List Char) × List Char) := none
  error : Option (Option (List Char)) := none
  retry_count : Option Nat := none
  pr_merged : Option Bool := none
  merged_at : Option (List Char) := none
  user_emailed : Option Bool := none
  message : Option (List Char) := none
  name : Option (List Char) := none
  email : Option (List Char) := none
deriving DecidableEq, Repr

/-- A claimed job row, with the fields `process_one` reads.  Nullable
columns are `Option`. -/
structure JobRow where
  id : String
  message : Option (List Char) := none
  name : Option (List Char) := none
  email : Option (List Char) := none
  retry_count : Option Nat := none
deriving DecidableEq, Repr

/-- `_build_inputs` (worker.py, lines 84-99), given the value of the
`GITHUB_REPO_URL` environment variable (empty when unset). -/
def build_inputs (row : JobRow) (repoUrl : List Char) : List (String × List Char) :=
  let message := pyStrip (row.message.getD [])
  let name := pyStrip (row.name.getD [])
  let email := pyStrip (row.email.getD [])
  let title :=
    if 72 < message.length then message.take 72 ++ pyStr "…"
    else if message = [] then pyStr "User feedback" else message
  [ ("feature_title", title),
    ("feature_description",
      if message = [] then
        pyStr "Feedback from " ++ (if name = [] then pyStr "anonymous" else name)
          ++ pyStr " <" ++ (if email = [] then pyStr "unknown" else email)
          ++ pyStr ">"
      else message),
    ("user_requirements", []),
    ("priority", pyStr "medium"),
    ("additional_context",
      pyStr "Submitted by: " ++ name ++ pyStr " <" ++ email ++ pyStr ">"),
    ("github_repo_url", repoUrl) ]

/-- The externally observable actions of one `process_one` call:
row updates, the two reconciler passes, and the idle sleep. -/
inductive Event where
  | update (rowId : String) (values : UpdateValues)
  | mergeCheck
  | pendingNotifications
  | sleep
deriving DecidableEq, Repr

/-- The environment of one `process_one` call: the row returned by
`_claim_next` (if any), the outcome of the opaque `crew.kickoff` call
(`Except.error` models a raised exception with its message, already
converted by `str(e)`; `Except.ok` the stringified result),
the `GITHUB_REPO_URL` value, and the current `_now_iso()` timestamp. -/
structure WorkerEnv where
  claimed : Option JobRow
  kickoff : Except (List Char) (List Char)
  repoUrl : List Char
  now : List Char

/-- `process_one` (worker.py, lines 373-427) as a trace of events.  No
job: run both reconciler passes, sleep, return.  Job claimed: on
kickoff success record the `done` update (extracted `pr_url`, raw
output, `error = None`) and then run both passes; on an exception
record only the `failed` update (message, `retry_count` incremented
from the claimed row, treating a missing value as 0). -/
def process_one (env : WorkerEnv) : List Event :=
  match env.claimed with
  | none => [Event.mergeCheck, Event.pendingNotifications, Event.sleep]
  | some row =>
    match env.kickoff with
    | Except.ok resultStr =>
      [Event.update row.id
        { status := some (pyStr "done"),
          agent_run_at := some env.now,
          pr_url := some (extract_pr_url resultStr),
          agent_output := some (build_inputs row env.repoUrl, resultStr),
          error := some none },
       Event.mergeCheck, Event.pendingNotifications]
    | Except.error msg =>
      [Event.update row.id
        { status := some (pyStr "failed"),
          agent_run_at := some env.now,
          error := some (some msg),
          retry_count := some (row.retry_count.getD 0 + 1) }]

/-- A `feature_requests` row as read by the reconciliation passes.
Boolean flags follow the code's `bool(row.get(...))` coercion. -/
structure FRow where
  id : String
  status : List Char
  pr_url : Option (List Char) := none
  pr_merged : Bool := false
  should_email_user : Bool := false
  user_emailed : Bool := false
  email : Option (List Char) := none
deriving DecidableEq, Repr

/-- Python truthiness of the `pr_url` column (`None` and `""` falsy). -/
def prUrlTruthy : Option (List Char) → Bool
  | none => false
  | some u => !u.isEmpty

/-- `_check_pr_merged` (worker.py, lines 117-135): an unparseable URL
(and any hosting-API exception, folded into the `gh` oracle answering
`(false, _)`) yields `(false, none)`; a merged PR yields `true` with
the hosting API's merge timestamp, defaulted to the current time. -/
def check_pr_merged (gh : List Char → Bool × Option (List Char))
    (now prUrl : List Char) : Bool × Option (List Char) :=
  match parse_pr_url prUrl with
  | none => (false, none)
  | some _ =>
    match gh prUrl with
    | (false, _) => (false, none)
    | (true, ma) => (true, some (ma.getD now))

/-- The externally observable actions of a reconciliation pass: row
updates and email send attempts (with the transport's outcome). -/
inductive PassEvent where
  | updateRow (rowId : String) (values : UpdateValues)
  | sendAttempt (rowId : String) (email : List Char) (success : Bool)
deriving DecidableEq, Repr

/-- The body of the `for row in rows` loop of `_check_and_notify_merges`
(worker.py, lines 309-337): skip a falsy or unmerged `pr_url`; when
merged, attempt the email only if opted in, not yet emailed and the
stripped address is non-empty, and issue one update carrying
`pr_merged`, `merged_at` and — only on a successful send —
`user_emailed`. -/
def mergeCheckRow (gh : List Char → Bool × Option (List Char))
    (send : FRow → Bool) (now : List Char) (row : FRow) : List PassEvent :=
  match row.pr_url with
  | none => []
  | some u =>
    if u.isEmpty then []
    else
      match check_pr_merged gh now u with
      | (false, _) => []
      | (true, ma) =>
        let email := pyStrip (row.email.getD [])
        if row.should_email_user && !row.user_emailed && !email.isEmpty then
          let sent := send row
          PassEvent.sendAttempt row.id email sent ::
            [PassEvent.updateRow row.id
              { pr_merged := some true, merged_at := some (ma.getD now),
                user_emailed := if sent then some true else none }]
        else
          [PassEvent.updateRow row.id
            { pr_merged := some true, merged_at := some (ma.getD now) }]

/-- `_check_and_notify_merges` (worker.py, lines 285-337) over the
fetched list of rows: keep the `status = "done"` rows with a truthy
`pr_url` not yet marked merged, and process each. -/
def mergeCheckPass (gh : List Char → Bool × Option (List Char))
    (send : FRow → Bool) (now : List Char) (db : List FRow) :
    List PassEvent :=
  ((db.filter (fun r => r.status = pyStr "done")).filter
      (fun r => prUrlTruthy r.pr_url && !r.pr_merged)).flatMap
    (mergeCheckRow gh send now)

/-- The body of the `for row in rows` loop of
`_send_pending_notifications` (worker.py, lines 361-370): skip an empty
stripped address or falsy `pr_url`; otherwise attempt the send and mark
`user_emailed` only on success. -/
def pendingRow (send : FRow → Bool) (row : FRow) : List PassEvent :=
  let email := pyStrip (row.email.getD [])
  match row.pr_url with
  | none => []
  | some u =>
    if email.isEmpty || u.isEmpty then []
    else
      let sent := send row
      PassEvent.sendAttempt row.id email sent ::
        (if sent then [PassEvent.updateRow row.id { user_emailed := some true }]
         else [])

/-- `_send_pending_notifications` (worker.py, lines 340-370) over the
fetched list of rows: the query keeps rows with `pr_merged = true`,
`should_email_user = true`, `user_emailed = false`. -/
def pendingPass (send : FRow → Bool) (db : List FRow) : List PassEvent :=
  (db.filter (fun r => r.pr_merged && r.should_email_user && !r.user_emailed)).flatMap
    (pendingRow send)

/-- The row id an event concerns. -/
def passEventId : PassEvent → String
  | PassEvent.updateRow rid _ => rid
  | PassEvent.sendAttempt rid _ _ => rid

/-- An email send is attempted for row `rid` somewhere in `evts`. -/
def attemptsSendFor (evts : List PassEvent) (rid : String) : Bool :=
  evts.any fun e =>
    match e with
    | PassEvent.sendAttempt i _ _ => i = rid
    | _ => false

/-- Some update in `evts` sets `user_emailed = true` for row `rid`. -/
def marksEmailedFor (evts : List PassEvent) (rid : String) : Bool :=
  evts.any fun e =>
    match e with
    | PassEvent.updateRow i v => i = rid && v.user_emailed = some true
    | _ => false

/-- The event is an update call for row `rid`. -/
def isUpdateFor (rid : String) : PassEvent → Bool
  | PassEvent.updateRow i _ => i = rid
  | PassEvent.sendAttempt _ _ _ => false

/-- The merge-check pass would observe this row's pull request as
merged: a truthy `pr_url` whose `_check_pr_merged` answer is `true`. -/
def mergedObserved (gh : List Char → Bool × Option (List Char))
    (now : List Char) (r : FRow) : Bool :=
  match r.pr_url with
  | none => false
  | some u => !u.isEmpty && (check_pr_merged gh now u).1

/-- "The row is merged": it has a (truthy) pull-request URL that either
is already recorded merged (`pr_merged`) or is observed merged by the
hosting API. -/
def rowIsMerged (gh : List Char → Bool × Option (List Char))
    (now : List Char) (r : FRow) : Bool :=
  (prUrlTruthy r.pr_url && r.pr_merged) || mergedObserved gh now r

lemma mergeCheckRow_event_id (gh : List Char → Bool × Option (List Char))
    (send : FRow → Bool) (now : List Char) (r : FRow) :
    ∀ e ∈ mergeCheckRow gh send now r, passEventId e = r.id := by
  intro e he
  rcases hu : r.pr_url with _ | u
  · simp [mergeCheckRow, hu] at he
  · rcases hc : check_pr_merged gh now u with ⟨b, ma⟩
    cases b <;> cases hue : u.isEmpty <;>
      cases hS : r.should_email_user <;> cases hE : r.user_emailed <;>
      cases hM : (pyStrip (r.email.getD [])).isEmpty <;>
      simp [mergeCheckRow, hu, hc, hue, hS, hE, hM] at he <;>
      first
        | (rcases he with rfl | rfl <;> rfl)
        | (subst he; rfl)

lemma pendingRow_event_id (send : FRow → Bool) (r : FRow) :
    ∀ e ∈ pendingRow send r, passEventId e = r.id := by
  intro e he
  rcases hu : r.pr_url with _ | u
  · simp [pendingRow, hu] at he
  · cases hue : u.isEmpty <;>
      cases hM : (pyStrip (r.email.getD [])).isEmpty <;>
      cases hs : send r <;>
      simp [pendingRow, hu, hue, hM, hs] at he <;>
      first
        | (rcases he with rfl | rfl <;> rfl)
        | (subst he; rfl)

lemma attemptsSendFor_mergeCheckRow
    (gh : List Char → Bool × Option (List Char)) (send : FRow → Bool)
    (now : List Char) (r : FRow) (rid : String) :
    attemptsSendFor (mergeCheckRow gh send now r) rid = true ↔
      (r.id = rid ∧ mergedObserved gh now r = true
        ∧ r.should_email_user = true ∧ r.user_emailed = false
        ∧ (pyStrip (r.email.getD [])).isEmpty = false) := by
  rcases hu : r.pr_url with _ | u
  · simp [mergeCheckRow, mergedObserved, attemptsSendFor, hu]
  · rcases hc : check_pr_merged gh now u with ⟨b, ma⟩
    cases b <;> cases hue : u.isEmpty <;>
      cases hS : r.should_email_user <;> cases hE : r.user_emailed <;>
      cases hM : (pyStrip (r.email.getD [])).isEmpty <;>
      simp [mergeCheckRow, mergedObserved, attemptsSendFor, hu, hc, hue,
        hS, hE, hM]

lemma attemptsSendFor_pendingRow (send : FRow → Bool) (r : FRow)
    (rid : String) :
    attemptsSendFor (pendingRow send r) rid = true ↔
      (r.id = rid ∧ prUrlTruthy r.pr_url = true
        ∧ (pyStrip (r.email.getD [])).isEmpty = false) := by
  rcases hu : r.pr_url with _ | u
  · simp [pendingRow, prUrlTruthy, attemptsSendFor, hu]
  · cases hue : u.isEmpty <;>
      cases hM : (pyStrip (r.email.getD [])).isEmpty <;>
      cases hs : send r <;>
      simp [pendingRow, prUrlTruthy, attemptsSendFor, hu, hue, hM, hs]

lemma marksEmailedFor_mergeCheckRow
    (gh : List Char → Bool × Option (List Char)) (send : FRow → Bool)
    (now : List Char) (r : FRow) (rid : String) :
    marksEmailedFor (mergeCheckRow gh send now r) rid = true ↔
      (r.id = rid ∧ mergedObserved gh now r = true
        ∧ r.should_email_user = true ∧ r.user_emailed = false
        ∧ (pyStrip (r.email.getD [])).isEmpty = false ∧ send r = true) := by
  rcases hu : r.pr_url with _ | u
  · simp [mergeCheckRow, mergedObserved, marksEmailedFor, hu]
  · rcases hc : check_pr_merged gh now u with ⟨b, ma⟩
    cases b <;> cases hue : u.isEmpty <;>
      cases hS : r.should_email_user <;> cases hE : r.user_emailed <;>
      cases hM : (pyStrip (r.email.getD [])).isEmpty <;>
      cases hs : send r <;>
      simp [mergeCheckRow, mergedObserved, marksEmailedFor, hu, hc, hue,
        hS, hE, hM, hs]

lemma marksEmailedFor_pendingRow (send : FRow → Bool) (r : FRow)
    (rid : String) :
    marksEmailedFor (pendingRow send r) rid = true ↔
      (r.id = rid ∧ prUrlTruthy r.pr_url = true
        ∧ (pyStrip (r.email.getD [])).isEmpty = false ∧ send r = true) := by
  rcases hu : r.pr_url with _ | u
  · simp [pendingRow, prUrlTruthy, marksEmailedFor, hu]
  · cases hue : u.isEmpty <;>
      cases hM : (pyStrip (r.email.getD [])).isEmpty <;>
      cases hs : send r <;>
      simp [pendingRow, prUrlTruthy, marksEmailedFor, hu, hue, hM, hs]

lemma any_pass_unique (f : FRow → List PassEvent)
    (hf : ∀ r, ∀ e ∈ f r, passEventId e = r.id)
    (pred : FRow → Bool) (db : List FRow) (row : FRow)
    (hrow : row ∈ db) (hid : ∀ r ∈ db, r.id = row.id → r = row)
    (p : PassEvent → Bool) (hp : ∀ e, p e = true → passEventId e = row.id) :
    ((db.filter pred).flatMap f).any p = true ↔
      (pred row = true ∧ (f row).any p = true) := by
  rw [List.any_flatMap, List.any_eq_true]
  constructor
  · rintro ⟨r, hr, hany⟩
    rcases List.mem_filter.mp hr with ⟨hrdb, hpred⟩
    rcases List.any_eq_true.mp hany with ⟨e, he, hpe⟩
    have : r = row := hid r hrdb ((hf r e he).symm.trans (hp e hpe))
    subst this
    exact ⟨hpred, hany⟩
  · rintro ⟨hpred, hany⟩
    exact ⟨row, List.mem_filter.mpr ⟨hrow, hpred⟩, hany⟩

lemma filter_pass_unique (f : FRow → List PassEvent)
    (hf : ∀ r, ∀ e ∈ f r, passEventId e = r.id)
    (pred : FRow → Bool) (row : FRow)
    (p : PassEvent → Bool) (hp : ∀ e, p e = true → passEventId e = row.id)
    (hpred : pred row = true) :
    ∀ db : List FRow, db.filter (fun r => decide (r.id = row.id)) = [row] →
      ((db.filter pred).flatMap f).filter p = (f row).filter p := by
  have hchunk : ∀ r : FRow, r.id ≠ row.id → (f r).filter p = [] := by
    intro r hne
    refine List.filter_eq_nil_iff.mpr ?_
    intro e he hpe
    exact hne ((hf r e he).symm.trans (hp e hpe))
  intro db
  induction db with
  | nil => intro h; simp at h
  | cons r db ih =>
    intro h
    by_cases hr : r.id = row.id
    · rw [List.filter_cons_of_pos (by simp [hr])] at h
      rcases List.cons_eq_cons.mp h with ⟨hr2, htail⟩
      subst hr2
      rw [List.filter_cons_of_pos hpred, List.flatMap_cons,
        List.filter_append]
      have : ((db.filter pred).flatMap f).filter p = [] := by
        rw [List.filter_flatMap, List.flatMap_eq_nil_iff]
        intro r' hr'
        refine hchunk r' ?_
        have hr'db := (List.mem_filter.mp hr').1
        intro heq
        have h2 := List.filter_eq_nil_iff.mp htail r' hr'db
        simp at h2
        exact h2 heq
      rw [this, List.append_nil]
    · rw [List.filter_cons_of_neg (by simp [hr])] at h
      by_cases hpr : pred r = true
      · rw [List.filter_cons_of_pos hpr, List.flatMap_cons,
          List.filter_append, hchunk r hr, List.nil_append]
        exact ih h
      · rw [List.filter_cons_of_neg (by simp [hpr])]
        exact ih h

/-- One full reconciler run as `process_one` performs it: the
merge-check pass followed by the pending-notification pass. -/
def bothPasses (gh : List Char → Bool × Option (List Char))
    (send : FRow → Bool) (now : List Char) (db : List FRow) :
    List PassEvent :=
  mergeCheckPass gh send now db ++ pendingPass send db

lemma attemptsSendFor_append (a b : List PassEvent) (rid : String) :
    attemptsSendFor (a ++ b) rid =
      (attemptsSendFor a rid || attemptsSendFor b rid) := by
  unfold attemptsSendFor
  exact List.any_append

lemma marksEmailedFor_append (a b : List PassEvent) (rid : String) :
    marksEmailedFor (a ++ b) rid =
      (marksEmailedFor a rid || marksEmailedFor b rid) := by
  unfold marksEmailedFor
  exact List.any_append

lemma attemptsSendFor_pass (f : FRow → List PassEvent)
    (hf : ∀ r, ∀ e ∈ f r, passEventId e = r.id)
    (pred : FRow → Bool) (db : List FRow) (row : FRow)
    (hrow : row ∈ db) (hid : ∀ r ∈ db, r.id = row.id → r = row) :
    attemptsSendFor ((db.filter pred).flatMap f) row.id = true ↔
      (pred row = true ∧ attemptsSendFor (f row) row.id = true) := by
  unfold attemptsSendFor
  refine any_pass_unique f hf pred db row hrow hid _ ?_
  intro e hpe
  cases e with
  | updateRow i v => exact absurd hpe (by simp)
  | sendAttempt i em ok => exact of_decide_eq_true hpe

lemma marksEmailedFor_pass (f : FRow → List PassEvent)
    (hf : ∀ r, ∀ e ∈ f r, passEventId e = r.id)
    (pred : FRow → Bool) (db : List FRow) (row : FRow)
    (hrow : row ∈ db) (hid : ∀ r ∈ db, r.id = row.id → r = row) :
    marksEmailedFor ((db.filter pred).flatMap f) row.id = true ↔
      (pred row = true ∧ marksEmailedFor (f row) row.id = true) := by
  unfold marksEmailedFor
  refine any_pass_unique f hf pred db row hrow hid _ ?_
  intro e hpe
  cases e with
  | updateRow i v => exact of_decide_eq_true ((Bool.and_eq_true _ _).mp hpe).1
  | sendAttempt i em ok => exact absurd hpe (by simp)

lemma mergeCheckPass_eq (gh : List Char → Bool × Option (List Char))
    (send : FRow → Bool) (now : List Char) (db : List FRow) :
    mergeCheckPass gh send now db =
      (db.filter (fun r => (prUrlTruthy r.pr_url && !r.pr_merged) &&
          decide (r.status = pyStr "done"))).flatMap
        (mergeCheckRow gh send now) := by
  unfold mergeCheckPass
  rw [List.filter_filter]

lemma mergedObserved_truthy (gh : List Char → Bool × Option (List Char))
    (now : List Char) (r : FRow) (h : mergedObserved gh now r = true) :
    prUrlTruthy r.pr_url = true := by
  unfold mergedObserved at h
  unfold prUrlTruthy
  rcases hu : r.pr_url with _ | u <;> rw [hu] at h
  · exact h
  · exact ((Bool.and_eq_true _ _).mp h).1

lemma pyStartsWith_iff (pat : List Char) :
    ∀ s, pyStartsWith pat s = true ↔ ∃ rest, s = pat ++ rest := by
  induction pat with
  | nil => intro s; simp [pyStartsWith]
  | cons a pat ih =>
    intro s
    cases s with
    | nil => simp [pyStartsWith]
    | cons b t =>
      constructor
      · intro h
        rcases (Bool.and_eq_true _ _).mp h with ⟨hab, htail⟩
        rcases (ih t).mp htail with ⟨rest, rfl⟩
        exact ⟨rest, by simp [of_decide_eq_true hab]⟩
      · rintro ⟨rest, heq⟩
        rcases List.cons_eq_cons.mp heq with ⟨rfl, rfl⟩
        exact (Bool.and_eq_true _ _).mpr ⟨by simp, (ih _).mpr ⟨rest, rfl⟩⟩

lemma pyStartsWith_append (pat rest : List Char) :
    pyStartsWith pat (pat ++ rest) = true :=
  (pyStartsWith_iff pat _).mpr ⟨rest, rfl⟩

lemma takeWhile_all (p : Char → Bool) :
    ∀ l : List Char, (∀ x ∈ l, p x = true) → l.takeWhile p = l := by
  intro l h
  induction l with
  | nil => rfl
  | cons a l ih =>
    simp [List.takeWhile_cons, h a (List.mem_cons_self a l),
      ih fun x hx => h x (List.mem_cons_of_mem a hx)]

lemma takeWhile_append_cons (p : Char → Bool) (xs : List Char)
    (h : ∀ x ∈ xs, p x = true) (y : Char) (hy : p y = false)
    (ys : List Char) : (xs ++ y :: ys).takeWhile p = xs := by
  induction xs with
  | nil => simp [List.takeWhile_cons, hy]
  | cons a xs ih =>
    simp [List.takeWhile_cons, h a (List.mem_cons_self a xs),
      ih fun x hx => h x (List.mem_cons_of_mem a hx)]

lemma dropWhile_append_cons (p : Char → Bool) (xs : List Char)
    (h : ∀ x ∈ xs, p x = true) (y : Char) (hy : p y = false)
    (ys : List Char) : (xs ++ y :: ys).dropWhile p = y :: ys := by
  induction xs with
  | nil => simp [List.dropWhile_cons, hy]
  | cons a xs ih =>
    simp [List.dropWhile_cons, h a (List.mem_cons_self a xs),
      ih fun x hx => h x (List.mem_cons_of_mem a hx)]

lemma dropWhile_head_false (p : Char → Bool) :
    ∀ (l : List Char) c t, l.dropWhile p = c :: t → p c = false := by
  intro l
  induction l with
  | nil => intro c t h; exact absurd h (by simp)
  | cons a l ih =>
    intro c t h
    rw [List.dropWhile_cons] at h
    by_cases ha : p a = true
    · rw [ha] at h
      simp only [if_true] at h
      exact ih c t h
    · rw [Bool.not_eq_true] at ha
      rw [ha] at h
      simp only [Bool.false_eq_true, if_false] at h
      rcases List.cons_eq_cons.mp h with ⟨rfl, rfl⟩
      exact ha

lemma parsePrPath_complete (o r ds rest : List Char)
    (ho1 : o ≠ []) (ho2 : ∀ c ∈ o, c ≠ '/')
    (hr1 : r ≠ []) (hr2 : ∀ c ∈ r, c ≠ '/')
    (hds1 : ds ≠ []) (hds2 : ∀ c ∈ ds, c.isDigit = true)
    (hrest : ∀ c, rest.head? = some c → c.isDigit = false) :
    parsePrPath (o ++ '/' :: (r ++ pyStr "/pull/" ++ ds ++ rest)) =
      some (o, r, digitsToNat ds) := by
  have hsplit : r ++ pyStr "/pull/" ++ ds ++ rest =
      r ++ '/' :: (pyStr "pull/" ++ ds ++ rest) := by
    simp [List.append_assoc]
    rfl
  have e1 : List.takeWhile (fun c => c ≠ '/')
      (o ++ '/' :: (r ++ pyStr "/pull/" ++ ds ++ rest)) = o :=
    takeWhile_append_cons _ o (fun c hc => decide_eq_true (ho2 c hc)) '/'
      (by decide) _
  have e2 : List.dropWhile (fun c => c ≠ '/')
      (o ++ '/' :: (r ++ pyStr "/pull/" ++ ds ++ rest)) =
      '/' :: (r ++ pyStr "/pull/" ++ ds ++ rest) :=
    dropWhile_append_cons _ o (fun c hc => decide_eq_true (ho2 c hc)) '/'
      (by decide) _
  have e3 : List.takeWhile (fun c => c ≠ '/')
      (r ++ pyStr "/pull/" ++ ds ++ rest) = r := by
    rw [hsplit]
    exact takeWhile_append_cons _ r (fun c hc => decide_eq_true (hr2 c hc))
      '/' (by decide) _
  have e4 : List.dropWhile (fun c => c ≠ '/')
      (r ++ pyStr "/pull/" ++ ds ++ rest) =
      '/' :: (pyStr "pull/" ++ ds ++ rest) := by
    rw [hsplit]
    exact dropWhile_append_cons _ r (fun c hc => decide_eq_true (hr2 c hc))
      '/' (by decide) _
  have hpp : '/' :: (pyStr "pull/" ++ ds ++ rest) =
      pyStr "/pull/" ++ (ds ++ rest) := by
    simp [List.append_assoc]
    rfl
  have e5 : pyStartsWith (pyStr "/pull/")
      ('/' :: (pyStr "pull/" ++ ds ++ rest)) = true := by
    rw [hpp]
    exact pyStartsWith_append _ _
  have e6 : ('/' :: (pyStr "pull/" ++ ds ++ rest)).drop 6 = ds ++ rest := by
    rw [hpp]
    rfl
  have e7 : (ds ++ rest).takeWhile Char.isDigit = ds := by
    cases rest with
    | nil => rw [List.append_nil]; exact takeWhile_all _ ds hds2
    | cons c cs => exact takeWhile_append_cons _ ds hds2 c (hrest c rfl) cs
  simp only [parsePrPath, e1, e2, e3, e4, e5, if_true, e6, e7]
  simp [ho1, hr1, hds1]

lemma parsePrPath_sound (t o r : List Char) (n : Nat)
    (h : parsePrPath t = some (o, r, n)) :
    ∃ ds rest, t = o ++ '/' :: (r ++ pyStr "/pull/" ++ ds ++ rest)
      ∧ o ≠ [] ∧ (∀ c ∈ o, c ≠ '/') ∧ r ≠ [] ∧ (∀ c ∈ r, c ≠ '/')
      ∧ ds ≠ [] ∧ (∀ c ∈ ds, c.isDigit = true) ∧ digitsToNat ds = n
      ∧ (∀ c, rest.head? = some c → c.isDigit = false) := by
  unfold parsePrPath at h
  by_cases ho : List.takeWhile (fun c => c ≠ '/') t = []
  · rw [if_pos ho] at h; exact absurd h (by simp)
  rw [if_neg ho] at h
  cases hd : List.dropWhile (fun c => c ≠ '/') t with
  | nil =>
    simp only [hd] at h
    exact Option.noConfusion h
  | cons c t2 =>
    simp only [hd] at h
    have hc : c = '/' := by
      have := dropWhile_head_false _ t c t2 hd
      simpa using this
    subst hc
    by_cases hr : List.takeWhile (fun c => c ≠ '/') t2 = []
    · rw [if_pos hr] at h; exact absurd h (by simp)
    rw [if_neg hr] at h
    by_cases hpull : pyStartsWith (pyStr "/pull/")
        (List.dropWhile (fun c => c ≠ '/') t2) = true
    · rw [if_pos hpull] at h
      by_cases hds : ((List.dropWhile (fun c => c ≠ '/') t2).drop 6).takeWhile
          Char.isDigit = []
      · rw [if_pos hds] at h; exact absurd h (by simp)
      rw [if_neg hds] at h
      simp only [Option.some.injEq, Prod.mk.injEq] at h
      obtain ⟨h1, h2, h3⟩ := h
      subst h1
      subst h2
      subst h3
      obtain ⟨t4, ht3⟩ := (pyStartsWith_iff (pyStr "/pull/") _).mp hpull
      have h6 : (List.dropWhile (fun c => c ≠ '/') t2).drop 6 = t4 := by
        rw [ht3]
        rfl
      have h7 : ((List.dropWhile (fun c => c ≠ '/') t2).drop 6).takeWhile
            Char.isDigit ++
          ((List.dropWhile (fun c => c ≠ '/') t2).drop 6).dropWhile
            Char.isDigit = t4 :=
        (List.takeWhile_append_dropWhile _ _).trans h6
      refine ⟨((List.dropWhile (fun c => c ≠ '/') t2).drop 6).takeWhile
          Char.isDigit,
        ((List.dropWhile (fun c => c ≠ '/') t2).drop 6).dropWhile
          Char.isDigit, ?_, ho, ?_, hr, ?_, hds, ?_, rfl, ?_⟩
      · conv_lhs =>
          rw [← List.takeWhile_append_dropWhile (fun c => c ≠ '/') t, hd,
            ← List.takeWhile_append_dropWhile (fun c => c ≠ '/') t2, ht3,
            ← h7]
        simp [List.append_assoc]
      · intro c hcm
        have := List.mem_takeWhile_imp hcm
        simpa using this
      · intro c hcm
        have := List.mem_takeWhile_imp hcm
        simpa using this
      · intro c hcm
        exact List.mem_takeWhile_imp hcm
      · intro c hcm
        cases hl : ((List.dropWhile (fun c => c ≠ '/') t2).drop 6).dropWhile
            Char.isDigit with
        | nil => rw [hl] at hcm; exact absurd hcm (by simp)
        | cons a tl =>
          rw [hl] at hcm
          simp only [List.head?_cons, Option.some.injEq] at hcm
          subst hcm
          exact dropWhile_head_false _ _ _ _ hl
    · rw [if_neg hpull] at h
      exact absurd h (by simp)

/-- C3 counterexample: the code's URL logic does not accept exactly the
spec grammar `https://<host>/<owner>/<repo>/pull/<number>`: the parser
accepts `"http://github.com/a/b/pull/1x"` (http scheme, trailing
garbage), which is not of the grammar, and rejects
`"https://gitlab.com/a/b/pull/1"`, which is of the grammar (the code
fixes the host to `github.com`). -/
theorem c3_counterexample_url_grammar :
    (parse_pr_url (pyStr "http://github.com/a/b/pull/1x")).isSome = true
    ∧ specPrUrlGrammar (pyStr "http://github.com/a/b/pull/1x") = false
    ∧ specPrUrlGrammar (pyStr "https://gitlab.com/a/b/pull/1") = true
    ∧ parse_pr_url (pyStr "https://gitlab.com/a/b/pull/1") = none := by
  refine ⟨by decide, by decide, by decide, by decide⟩

/-- C3 amended: the parser accepts exactly the strings with a PREFIX of
the shape `http(s)://github.com/<owner>/<repo>/pull/<digits>` — host
fixed to `github.com`, `http` accepted alongside `https`, owner and
repo non-empty and slash-free, a non-empty maximal digit run, and
arbitrary trailing text after the digits; the extraction's preferred
`PR created:` branch may return any non-whitespace URL, not
necessarily of that shape. -/
theorem c3_amended_prefix_grammar :
    (∀ s o r n, parse_pr_url s = some (o, r, n) →
      ∃ sch ds rest,
        (sch = pyStr "https://" ∨ sch = pyStr "http://")
        ∧ s = sch ++ pyStr "github.com/" ++
            (o ++ '/' :: (r ++ pyStr "/pull/" ++ ds ++ rest))
        ∧ o ≠ [] ∧ (∀ c ∈ o, c ≠ '/') ∧ r ≠ [] ∧ (∀ c ∈ r, c ≠ '/')
        ∧ ds ≠ [] ∧ (∀ c ∈ ds, c.isDigit = true) ∧ digitsToNat ds = n
        ∧ (∀ c, rest.head? = some c → c.isDigit = false))
    ∧ (∀ o r ds rest, o ≠ [] → (∀ c ∈ o, c ≠ '/') → r ≠ [] →
        (∀ c ∈ r, c ≠ '/') → ds ≠ [] → (∀ c ∈ ds, c.isDigit = true) →
        (∀ c, rest.head? = some c → c.isDigit = false) →
        parse_pr_url (pyStr "https://github.com/" ++
            (o ++ '/' :: (r ++ pyStr "/pull/" ++ ds ++ rest))) =
          some (o, r, digitsToNat ds))
    ∧ extract_pr_url (pyStr "PR created: https://example.com/x") =
        some (pyStr "https://example.com/x") := by
  refine ⟨?_, ?_, by decide⟩
  · intro s o r n h
    unfold parse_pr_url at h
    by_cases h19 : pyStartsWith (pyStr "https://github.com/") s = true
    · rw [if_pos h19] at h
      obtain ⟨t, rfl⟩ := (pyStartsWith_iff _ _).mp h19
      have hdrop : (pyStr "https://github.com/" ++ t).drop 19 = t := rfl
      rw [hdrop] at h
      obtain ⟨ds, rest, heq, ho1, ho2, hr1, hr2, hds1, hds2, hn, hrest⟩ :=
        parsePrPath_sound t o r n h
      refine ⟨pyStr "https://", ds, rest, Or.inl rfl, ?_, ho1, ho2, hr1,
        hr2, hds1, hds2, hn, hrest⟩
      rw [heq]
      have hgh : pyStr "https://github.com/" =
          pyStr "https://" ++ pyStr "github.com/" := rfl
      rw [hgh]
    · rw [if_neg h19] at h
      by_cases h18 : pyStartsWith (pyStr "http://github.com/") s = true
      · rw [if_pos h18] at h
        obtain ⟨t, rfl⟩ := (pyStartsWith_iff _ _).mp h18
        have hdrop : (pyStr "http://github.com/" ++ t).drop 18 = t := rfl
        rw [hdrop] at h
        obtain ⟨ds, rest, heq, ho1, ho2, hr1, hr2, hds1, hds2, hn, hrest⟩ :=
          parsePrPath_sound t o r n h
        refine ⟨pyStr "http://", ds, rest, Or.inr rfl, ?_, ho1, ho2, hr1,
          hr2, hds1, hds2, hn, hrest⟩
        rw [heq]
        have hgh : pyStr "http://github.com/" =
            pyStr "http://" ++ pyStr "github.com/" := rfl
        rw [hgh]
      · rw [if_neg h18] at h
        exact absurd h (by simp)
  · intro o r ds rest ho1 ho2 hr1 hr2 hds1 hds2 hrest
    unfold parse_pr_url
    rw [if_pos (pyStartsWith_append (pyStr "https://github.com/") _)]
    have hdrop : (pyStr "https://github.com/" ++
        (o ++ '/' :: (r ++ pyStr "/pull/" ++ ds ++ rest))).drop 19 =
        o ++ '/' :: (r ++ pyStr "/pull/" ++ ds ++ rest) := rfl
    rw [hdrop]
    exact parsePrPath_complete o r ds rest ho1 ho2 hr1 hr2 hds1 hds2 hrest

/-- C3 amended witness: the prefix grammar instantiated at
`https://github.com/acme/app/pull/42`. -/
theorem c3_amended_prefix_grammar_witness :
    parse_pr_url (pyStr "https://github.com/" ++
        (pyStr "acme" ++ '/' ::
          (pyStr "app" ++ pyStr "/pull/" ++ pyStr "42" ++ []))) =
      some (pyStr "acme", pyStr "app", digitsToNat (pyStr "42")) :=
  c3_amended_prefix_grammar.2.1 (pyStr "acme") (pyStr "app") (pyStr "42") []
    (by decide) (by decide) (by decide) (by decide) (by decide) (by decide)
    (fun c hc => Option.noConfusion hc)

/-- C5: over one reconciler run (merge-check pass then
pending-notification pass), for a row uniquely identified by its id
whose state satisfies the reachability invariant "a truthy `pr_url` on
a not-yet-merged row implies `status = done`": an email send is
attempted iff the row is merged, opted in, not yet emailed and has a
non-empty (stripped) address; `user_emailed` is set only on a
successful send; an opted-out row is never attempted nor marked; a row
already marked emailed is never attempted again. -/
theorem c5_notification_idempotency
    (gh : List Char → Bool × Option (List Char)) (send : FRow → Bool)
    (now : List Char) (db : List FRow) (row : FRow)
    (hrow : row ∈ db)
    (hid : ∀ r ∈ db, r.id = row.id → r = row)
    (hst : prUrlTruthy row.pr_url = true → row.pr_merged = false →
      row.status = pyStr "done") :
    (attemptsSendFor (bothPasses gh send now db) row.id = true ↔
      (rowIsMerged gh now row = true ∧ row.should_email_user = true
        ∧ row.user_emailed = false
        ∧ (pyStrip (row.email.getD [])).isEmpty = false))
    ∧ (marksEmailedFor (bothPasses gh send now db) row.id = true →
        send row = true)
    ∧ (row.should_email_user = false →
        attemptsSendFor (bothPasses gh send now db) row.id = false
        ∧ marksEmailedFor (bothPasses gh send now db) row.id = false)
    ∧ (row.user_emailed = true →
        attemptsSendFor (bothPasses gh send now db) row.id = false) := by
  have hAiff : attemptsSendFor (bothPasses gh send now db) row.id = true ↔
      (((prUrlTruthy row.pr_url && !row.pr_merged) &&
          decide (row.status = pyStr "done")) = true
        ∧ attemptsSendFor (mergeCheckRow gh send now row) row.id = true)
      ∨ ((row.pr_merged && row.should_email_user && !row.user_emailed) = true
        ∧ attemptsSendFor (pendingRow send row) row.id = true) := by
    unfold bothPasses
    rw [attemptsSendFor_append, Bool.or_eq_true, mergeCheckPass_eq]
    unfold pendingPass
    rw [attemptsSendFor_pass (mergeCheckRow gh send now)
        (mergeCheckRow_event_id gh send now) _ db row hrow hid,
      attemptsSendFor_pass (pendingRow send)
        (pendingRow_event_id send) _ db row hrow hid]
  have hMiff : marksEmailedFor (bothPasses gh send now db) row.id = true ↔
      (((prUrlTruthy row.pr_url && !row.pr_merged) &&
          decide (row.status = pyStr "done")) = true
        ∧ marksEmailedFor (mergeCheckRow gh send now row) row.id = true)
      ∨ ((row.pr_merged && row.should_email_user && !row.user_emailed) = true
        ∧ marksEmailedFor (pendingRow send row) row.id = true) := by
    unfold bothPasses
    rw [marksEmailedFor_append, Bool.or_eq_true, mergeCheckPass_eq]
    unfold pendingPass
    rw [marksEmailedFor_pass (mergeCheckRow gh send now)
        (mergeCheckRow_event_id gh send now) _ db row hrow hid,
      marksEmailedFor_pass (pendingRow send)
        (pendingRow_event_id send) _ db row hrow hid]
  have hmain : attemptsSendFor (bothPasses gh send now db) row.id = true ↔
      (rowIsMerged gh now row = true ∧ row.should_email_user = true
        ∧ row.user_emailed = false
        ∧ (pyStrip (row.email.getD [])).isEmpty = false) := by
    rw [hAiff, attemptsSendFor_mergeCheckRow, attemptsSendFor_pendingRow]
    unfold rowIsMerged
    constructor
    · rintro (⟨hpred, _, hobs, hS, hE, hM⟩ | ⟨hpred, _, ht, hM⟩)
      · exact ⟨by simp [hobs], hS, hE, hM⟩
      · rcases (Bool.and_eq_true _ _).mp ((Bool.and_eq_true _ _).mp hpred).1
          with ⟨hpm, hS⟩
        have hE := ((Bool.and_eq_true _ _).mp hpred).2
        simp only [Bool.not_eq_true'] at hE
        exact ⟨by simp [ht, hpm], hS, hE, hM⟩
    · rintro ⟨hmerged, hS, hE, hM⟩
      rcases (Bool.or_eq_true _ _).mp hmerged with hboth | hobs
      · rcases (Bool.and_eq_true _ _).mp hboth with ⟨ht, hpm⟩
        exact Or.inr ⟨by simp [hpm, hS, hE], rfl, ht, hM⟩
      · cases hpm : row.pr_merged with
        | true =>
          exact Or.inr ⟨by simp [hpm, hS, hE], rfl,
            mergedObserved_truthy gh now row hobs, hM⟩
        | false =>
          refine Or.inl ⟨?_, rfl, hobs, hS, hE, hM⟩
          simp [mergedObserved_truthy gh now row hobs, hpm,
            hst (mergedObserved_truthy gh now row hobs) hpm]
  refine ⟨hmain, ?_, ?_, ?_⟩
  · intro hmk
    rcases hMiff.mp hmk with ⟨_, h⟩ | ⟨_, h⟩
    · exact ((marksEmailedFor_mergeCheckRow gh send now row
        row.id).mp h).2.2.2.2.2
    · exact ((marksEmailedFor_pendingRow send row row.id).mp h).2.2.2
  · intro hSf
    constructor
    · refine Bool.eq_false_iff.mpr fun hA => ?_
      have := (hmain.mp hA).2.1
      rw [hSf] at this
      exact Bool.false_ne_true this
    · refine Bool.eq_false_iff.mpr fun hMk => ?_
      rcases hMiff.mp hMk with ⟨_, h⟩ | ⟨hpred, _⟩
      · have := ((marksEmailedFor_mergeCheckRow gh send now row
          row.id).mp h).2.2.1
        rw [hSf] at this
        exact Bool.false_ne_true this
      · have := ((Bool.and_eq_true _ _).mp
          ((Bool.and_eq_true _ _).mp hpred).1).2
        rw [hSf] at this
        exact Bool.false_ne_true this
  · intro hEt
    refine Bool.eq_false_iff.mpr fun hA => ?_
    have := (hmain.mp hA).2.2.1
    rw [hEt] at this
    exact Bool.noConfusion this

/-- C5 witness: a concrete one-row database (merged, opted in, not yet
emailed, with an address) on which the run attempts exactly the send
the theorem predicts. -/
theorem c5_notification_idempotency_witness :
    attemptsSendFor
      (bothPasses (fun _ => (true, some (pyStr "tm")))
        (fun _ => true) (pyStr "t0")
        [{ id := "r1", status := pyStr "done",
           pr_url := some (pyStr "https://github.com/a/b/pull/1"),
           pr_merged := true, should_email_user := true,
           user_emailed := false, email := some (pyStr "u@x.com") }])
      "r1" = true :=
  (c5_notification_idempotency (fun _ => (true, some (pyStr "tm")))
    (fun _ => true) (pyStr "t0")
    [{ id := "r1", status := pyStr "done",
       pr_url := some (pyStr "https://github.com/a/b/pull/1"),
       pr_merged := true, should_email_user := true,
       user_emailed := false, email := some (pyStr "u@x.com") }]
    { id := "r1", status := pyStr "done",
      pr_url := some (pyStr "https://github.com/a/b/pull/1"),
      pr_merged := true, should_email_user := true,
      user_emailed := false, email := some (pyStr "u@x.com") }
    (by simp) (by intro r hr h2; simpa using hr) (by intro h1 h2; rfl)).1.mpr
    (by refine ⟨by decide, rfl, rfl, by decide⟩)

/-- C6: in the merge-check pass, a row (uniquely identified by its id)
that is fetched as `status = done` with a non-empty `pr_url`, not yet
marked merged, and observed merged by the hosting API, receives exactly
one update call; that update carries `pr_merged = true` and `mergedAt`
together, whatever the send oracle answers (mail failure or skip never
blocks it), and carries `user_emailed = true` exactly when an opted-in,
not-yet-emailed row with an address had a successful send. -/
theorem c6_single_update_records_merge
    (gh : List Char → Bool × Option (List Char)) (send : FRow → Bool)
    (now : List Char) (db : List FRow) (row : FRow) (u : List Char)
    (ma : Option (List Char))
    (hrow1 : db.filter (fun r => decide (r.id = row.id)) = [row])
    (hstatus : row.status = pyStr "done")
    (hurl : row.pr_url = some u) (hune : u.isEmpty = false)
    (hnm : row.pr_merged = false)
    (hchk : check_pr_merged gh now u = (true, ma)) :
    ∃ v, (mergeCheckPass gh send now db).filter (isUpdateFor row.id) =
        [PassEvent.updateRow row.id v]
      ∧ v.pr_merged = some true ∧ v.merged_at = some (ma.getD now)
      ∧ (v.user_emailed = some true ↔
          (row.should_email_user = true ∧ row.user_emailed = false
            ∧ (pyStrip (row.email.getD [])).isEmpty = false
            ∧ send row = true)) := by
  have hp : ∀ e, isUpdateFor row.id e = true → passEventId e = row.id := by
    intro e he
    cases e with
    | updateRow i v => exact of_decide_eq_true he
    | sendAttempt i em ok => exact absurd he (by simp [isUpdateFor])
  have hpred : (fun r => (prUrlTruthy r.pr_url && !r.pr_merged) &&
      decide (r.status = pyStr "done")) row = true := by
    simp [prUrlTruthy, hurl, hune, hnm, hstatus]
  rw [mergeCheckPass_eq,
    filter_pass_unique (mergeCheckRow gh send now)
      (mergeCheckRow_event_id gh send now) _ row (isUpdateFor row.id) hp
      hpred db hrow1]
  by_cases hcond : (row.should_email_user && !row.user_emailed &&
      !(pyStrip (row.email.getD [])).isEmpty) = true
  · have h1 := (Bool.and_eq_true _ _).mp hcond
    have hS := ((Bool.and_eq_true _ _).mp h1.1).1
    have hE := ((Bool.and_eq_true _ _).mp h1.1).2
    have hM := h1.2
    simp only [Bool.not_eq_true'] at hE hM
    cases hs : send row
    · refine ⟨{ pr_merged := some true, merged_at := some (ma.getD now) },
        by simp [mergeCheckRow, hurl, hune, hchk, hcond, hs, isUpdateFor],
        rfl, rfl, by simp [hs]⟩
    · refine ⟨{ pr_merged := some true, merged_at := some (ma.getD now),
                user_emailed := some true },
        by simp [mergeCheckRow, hurl, hune, hchk, hcond, hs, isUpdateFor],
        rfl, rfl, by simp [hS, hE, hM, hs]⟩
  · refine ⟨{ pr_merged := some true, merged_at := some (ma.getD now) },
      by simp [mergeCheckRow, hurl, hune, hchk, hcond, isUpdateFor],
      rfl, rfl, ?_⟩
    constructor
    · intro h
      exact absurd h (by simp)
    · rintro ⟨hS2, hE2, hM2, _⟩
      exact absurd (by simp [hS2, hE2, hM2] :
        (row.should_email_user && !row.user_emailed &&
          !(pyStrip (row.email.getD [])).isEmpty) = true) hcond

/-- C6 witness: on a concrete database with one eligible merged row and
a failing mail transport, the pass still issues exactly one update
carrying the merge fields, without `user_emailed`. -/
theorem c6_single_update_records_merge_witness :
    ∃ v, (mergeCheckPass (fun _ => (true, some (pyStr "tm")))
        (fun _ => false) (pyStr "t0")
        [{ id := "r1", status := pyStr "done",
           pr_url := some (pyStr "https://github.com/a/b/pull/1"),
           pr_merged := false, should_email_user := true,
           user_emailed := false,
           email := some (pyStr "u@x.com") }]).filter (isUpdateFor "r1") =
        [PassEvent.updateRow "r1" v]
      ∧ v.pr_merged = some true ∧ v.merged_at = some (pyStr "tm")
      ∧ (v.user_emailed = some true ↔
          (true = true ∧ false = false ∧ false = false ∧ false = true)) := by
  have h := c6_single_update_records_merge
    (fun _ => (true, some (pyStr "tm"))) (fun _ => false) (pyStr "t0")
    [{ id := "r1", status := pyStr "done",
       pr_url := some (pyStr "https://github.com/a/b/pull/1"),
       pr_merged := false, should_email_user := true,
       user_emailed := false, email := some (pyStr "u@x.com") }]
    { id := "r1", status := pyStr "done",
      pr_url := some (pyStr "https://github.com/a/b/pull/1"),
      pr_merged := false, should_email_user := true,
      user_emailed := false, email := some (pyStr "u@x.com") }
    (pyStr "https://github.com/a/b/pull/1") (some (pyStr "tm"))
    (by simp) rfl rfl (by decide) rfl (by decide)
  simpa using h

/-- C2: a surgical replacement with positive count `n` replaces at most
`n` occurrences (the loop performs at most `n` replacements, whatever
the cursor and content), and on `"aXaXaXa"` with `count = 2`,
`"a" → "bb"` the applier yields exactly `"bbXbbXaXa"` — the cursor is
advanced past the inserted text, so inserted text is never re-matched. -/
theorem c2_surgical_bounded_replacement :
    applyReplacement (pyStr "aXaXaXa") (pyStr "a") (pyStr "bb") (some 2) =
      pyStr "bbXbbXaXa"
    ∧ ∀ findT replT n start s,
        surgicalLoopCount findT replT n start s ≤ n := by
  refine ⟨by decide, ?_⟩
  intro findT replT n
  induction n with
  | zero => intro start s; simp [surgicalLoopCount]
  | succ k ih =>
    intro start s
    simp only [surgicalLoopCount]
    split
    · exact Nat.zero_le _
    · exact Nat.succ_le_succ (ih _ _)

/-- C9: `count = 0` replaces nothing (the bounded loop performs zero
iterations), so inside a batch such an edit commits nothing and the
remaining edits run from an unchanged state; an omitted (`None`) count
replaces all occurrences, so the two cases differ at the tool
interface (witnessed on `"aa"`, `"a" → "b"`). -/
theorem c9_count_zero_is_noop :
    (∀ s f r, applyReplacement s f r (some 0) = s)
    ∧ (∀ title base branch (rep : SurgicalRep) rest acc orig,
        rep.count = some 0 → rep.path ≠ "" →
        (branch.lookup rep.path <|> base.lookup rep.path) = some orig →
        runReplacements title base branch (rep :: rest) acc =
          runReplacements title base branch rest acc)
    ∧ applyReplacement (pyStr "aa") (pyStr "a") (pyStr "b") none = pyStr "bb"
    ∧ applyReplacement (pyStr "aa") (pyStr "a") (pyStr "b") (some 0) =
        pyStr "aa" := by
  refine ⟨fun s f r => rfl, ?_, by decide, by decide⟩
  intro title base branch rep rest acc orig hc hp hl
  simp only [runReplacements, if_neg hp, hl, hc, applyReplacement,
    surgicalLoop]
  simp

/-- C9 witness: a concrete batch whose head edit carries `count = 0`
skips its commit and leaves the rest of the batch unaffected. -/
theorem c9_count_zero_is_noop_witness :
    runReplacements (pyStr "t") [("f", pyStr "x")] []
        [{ path := "f", find_text := pyStr "x", replace_text := pyStr "y",
           count := some 0 }] [] =
      runReplacements (pyStr "t") [("f", pyStr "x")] [] [] [] :=
  c9_count_zero_is_noop.2.1 (pyStr "t") [("f", pyStr "x")] []
    { path := "f", find_text := pyStr "x", replace_text := pyStr "y",
      count := some 0 } [] [] (pyStr "x") rfl (by decide) (by decide)

/-- C8: an edit whose applied result equals the original file content
produces no commit and does not disturb the processing of the rest of
the batch, whatever the branch state at that point; an edit whose
target is found on neither the working branch nor the base branch makes
the whole call fail with the error string naming the path. -/
theorem c8_noop_skip_and_missing_file :
    (∀ title base branch (rep : SurgicalRep) rest acc orig,
        rep.path ≠ "" →
        (branch.lookup rep.path <|> base.lookup rep.path) = some orig →
        applyReplacement orig rep.find_text rep.replace_text rep.count =
          orig →
        runReplacements title base branch (rep :: rest) acc =
          runReplacements title base branch rest acc)
    ∧ (∀ title base branch (rep : SurgicalRep) rest acc,
        rep.path ≠ "" →
        branch.lookup rep.path = none → base.lookup rep.path = none →
        runReplacements title base branch (rep :: rest) acc =
          Except.error ("Target file not found for replacement: " ++
            rep.path)) := by
  constructor
  · intro title base branch rep rest acc orig hp hl hnoop
    simp only [runReplacements, if_neg hp, hl, hnoop]
    simp
  · intro title base branch rep rest acc hp hb hb2
    simp only [runReplacements, if_neg hp, hb, hb2, Option.orElse_none,
      Option.none_orElse]

/-- C8 witness: concrete instances of both parts — a no-op edit (find
text absent) skips its commit, and a missing target path fails the
whole call naming the path. -/
theorem c8_noop_skip_and_missing_file_witness :
    runReplacements (pyStr "t") [("f", pyStr "abc")] []
        [{ path := "f", find_text := pyStr "zz", replace_text := pyStr "y",
           count := none }] [] =
      runReplacements (pyStr "t") [("f", pyStr "abc")] [] [] []
    ∧ runReplacements (pyStr "t") [("f", pyStr "abc")] []
        [{ path := "g", find_text := pyStr "a", replace_text := pyStr "y",
           count := none }] [] =
      Except.error ("Target file not found for replacement: " ++ "g") :=
  ⟨c8_noop_skip_and_missing_file.1 (pyStr "t") [("f", pyStr "abc")] []
      { path := "f", find_text := pyStr "zz", replace_text := pyStr "y",
        count := none } [] [] (pyStr "abc") (by decide) (by decide)
      (by decide),
   c8_noop_skip_and_missing_file.2 (pyStr "t") [("f", pyStr "abc")] []
      { path := "g", find_text := pyStr "a", replace_text := pyStr "y",
        count := none } [] [] (by decide) (by decide) (by decide)⟩

/-- C7: an exception in the claimed-job body makes `process_one` record
exactly one update — `status = failed`, the timestamp, the exception's
message, and `retry_count` strictly greater than (one more than) the
previous value — and a successful run's terminal update carries
`status = done` with `error` present and null. -/
theorem c7_failure_envelope :
    (∀ env row msg, env.claimed = some row →
        env.kickoff = Except.error msg →
        process_one env = [Event.update row.id
          { status := some (pyStr "failed"), agent_run_at := some env.now,
            error := some (some msg),
            retry_count := some (row.retry_count.getD 0 + 1) }]
        ∧ row.retry_count.getD 0 < row.retry_count.getD 0 + 1)
    ∧ (∀ env row rs, env.claimed = some row →
        env.kickoff = Except.ok rs →
        ∃ v, process_one env =
            Event.update row.id v ::
              [Event.mergeCheck, Event.pendingNotifications]
          ∧ v.error = some none ∧ v.status = some (pyStr "done")) := by
  constructor
  · intro env row msg h1 h2
    refine ⟨?_, Nat.lt_succ_self _⟩
    simp [process_one, h1, h2]
  · intro env row rs h1 h2
    refine ⟨{ status := some (pyStr "done"),
              agent_run_at := some env.now,
              pr_url := some (extract_pr_url rs),
              agent_output := some (build_inputs row env.repoUrl, rs),
              error := some none }, ?_, rfl, rfl⟩
    simp [process_one, h1, h2]

/-- C7 witness: a concrete claimed job whose kickoff raises `"boom"`
gets one `failed` update with `retry_count` bumped from 2 to 3. -/
theorem c7_failure_envelope_witness :
    process_one { claimed := some { id := "job-1", retry_count := some 2 },
                  kickoff := Except.error (pyStr "boom"),
                  repoUrl := [], now := pyStr "t0" } =
      [Event.update "job-1"
        { status := some (pyStr "failed"), agent_run_at := some (pyStr "t0"),
          error := some (some (pyStr "boom")), retry_count := some 3 }] :=
  (c7_failure_envelope.1
    { claimed := some { id := "job-1", retry_count := some 2 },
      kickoff := Except.error (pyStr "boom"), repoUrl := [],
      now := pyStr "t0" }
    { id := "job-1", retry_count := some 2 } (pyStr "boom") rfl rfl).1

/-- C10: the failed-path update carries exactly the keys `status`,
`agent_run_at`, `error` and `retry_count`; `pr_url`, `agent_output`,
`message`, `name`, `email` (and the merge/notification fields) are
absent, so a failed attempt leaves them untouched. -/
theorem c10_failed_update_frame :
    ∀ env row msg, env.claimed = some row →
      env.kickoff = Except.error msg →
      ∃ v, process_one env = [Event.update row.id v]
        ∧ v.status = some (pyStr "failed") ∧ v.agent_run_at = some env.now
        ∧ v.error = some (some msg)
        ∧ v.retry_count = some (row.retry_count.getD 0 + 1)
        ∧ v.pr_url = none ∧ v.agent_output = none ∧ v.message = none
        ∧ v.name = none ∧ v.email = none ∧ v.pr_merged = none
        ∧ v.merged_at = none ∧ v.user_emailed = none := by
  intro env row msg h1 h2
  refine ⟨{ status := some (pyStr "failed"),
            agent_run_at := some env.now,
            error := some (some msg),
            retry_count := some (row.retry_count.getD 0 + 1) }, ?_, rfl, rfl,
    rfl, rfl, rfl, rfl, rfl, rfl, rfl, rfl, rfl, rfl⟩
  simp [process_one, h1, h2]

/-- C10 witness: the concrete failed update of a claimed job writes
only the four failed-path fields. -/
theorem c10_failed_update_frame_witness :
    ∃ v, process_one { claimed := some { id := "job-1" },
                       kickoff := Except.error (pyStr "boom"),
                       repoUrl := [], now := pyStr "t0" } =
        [Event.update "job-1" v]
      ∧ v.status = some (pyStr "failed")
      ∧ v.agent_run_at = some (pyStr "t0")
      ∧ v.error = some (some (pyStr "boom")) ∧ v.retry_count = some 1
      ∧ v.pr_url = none ∧ v.agent_output = none ∧ v.message = none
      ∧ v.name = none ∧ v.email = none ∧ v.pr_merged = none
      ∧ v.merged_at = none ∧ v.user_emailed = none :=
  c10_failed_update_frame
    { claimed := some { id := "job-1" },
      kickoff := Except.error (pyStr "boom"), repoUrl := [],
      now := pyStr "t0" }
    { id := "job-1" } (pyStr "boom") rfl rfl

/-- C1 counterexample: on a concrete claimed job whose kickoff raises,
`process_one` runs neither the merge-check pass nor the
pending-notification pass before returning, contradicting the claim
that both passes always run on the failed path as well. -/
theorem c1_counterexample_failed_path_skips_passes :
    Event.mergeCheck ∉
      process_one { claimed := some { id := "job-1" },
                    kickoff := Except.error (pyStr "boom"),
                    repoUrl := [], now := pyStr "t0" }
    ∧ Event.pendingNotifications ∉
      process_one { claimed := some { id := "job-1" },
                    kickoff := Except.error (pyStr "boom"),
                    repoUrl := [], now := pyStr "t0" } := by
  constructor <;> decide

/-- C1 amended: `process_one` runs both reconciler passes before
returning when the terminal update records `status = done`, and also on
an idle cycle with no claimed job; but when an exception makes it
record `status = failed`, it returns immediately after that single
update and runs neither pass. -/
theorem c1_amended_passes_on_done_and_idle_only :
    (∀ env row rs, env.claimed = some row → env.kickoff = Except.ok rs →
      Event.mergeCheck ∈ process_one env
      ∧ Event.pendingNotifications ∈ process_one env)
    ∧ (∀ env, env.claimed = none →
      Event.mergeCheck ∈ process_one env
      ∧ Event.pendingNotifications ∈ process_one env)
    ∧ (∀ env row msg, env.claimed = some row →
      env.kickoff = Except.error msg →
      Event.mergeCheck ∉ process_one env
      ∧ Event.pendingNotifications ∉ process_one env) := by
  refine ⟨?_, ?_, ?_⟩
  · intro env row rs h1 h2
    simp [process_one, h1, h2]
  · intro env h
    simp [process_one, h]
  · intro env row msg h1 h2
    simp [process_one, h1, h2]

/-- C1 amended witness: on a concrete idle cycle both passes run. -/
theorem c1_amended_passes_on_done_and_idle_only_witness :
    Event.mergeCheck ∈
      process_one { claimed := none, kickoff := Except.ok [],
                    repoUrl := [], now := pyStr "t0" }
    ∧ Event.pendingNotifications ∈
      process_one { claimed := none, kickoff := Except.ok [],
                    repoUrl := [], now := pyStr "t0" } :=
  c1_amended_passes_on_done_and_idle_only.2.1
    { claimed := none, kickoff := Except.ok [], repoUrl := [],
      now := pyStr "t0" } rfl

/-- C4: PR-URL extraction prefers the `PR created: <url>` capture,
falls back to the first GitHub pull-request URL, else yields no result;
the spec's concrete cases evaluate as stated, and an absent URL is not
an error — the done update is still issued with `status = done`,
`error` null and a present-but-null `pr_url`. -/
theorem c4_extraction_order_and_no_match :
    extract_pr_url
        (pyStr "before\nPR created: https://github.com/acme/app/pull/42\n") =
      some (pyStr "https://github.com/acme/app/pull/42")
    ∧ extract_pr_url (pyStr "no url here at all") = none
    ∧ extract_pr_url
        (pyStr "see https://github.com/acme/app/pull/7 for details") =
      some (pyStr "https://github.com/acme/app/pull/7")
    ∧ (∀ t u, searchPrCreated t = some u → extract_pr_url t = some u)
    ∧ (∀ t, t ≠ [] → searchPrCreated t = none →
        extract_pr_url t = searchGithubPr t)
    ∧ (∀ env row rs, env.claimed = some row →
        env.kickoff = Except.ok rs → extract_pr_url rs = none →
        ∃ v, process_one env =
            Event.update row.id v ::
              [Event.mergeCheck, Event.pendingNotifications]
          ∧ v.pr_url = some none ∧ v.status = some (pyStr "done")
          ∧ v.error = some none) := by
  refine ⟨by decide, by decide, by decide, ?_, ?_, ?_⟩
  · intro t u h
    have ht : t ≠ [] := by
      intro he
      subst he
      exact Option.noConfusion ((by decide :
        searchPrCreated ([] : List Char) = none) ▸ h)
    simp [extract_pr_url, ht, h]
  · intro t ht h
    simp [extract_pr_url, ht, h]
  · intro env row rs h1 h2 h3
    refine ⟨{ status := some (pyStr "done"),
              agent_run_at := some env.now,
              pr_url := some (extract_pr_url rs),
              agent_output := some (build_inputs row env.repoUrl, rs),
              error := some none }, ?_, by simp [h3], rfl, rfl⟩
    simp [process_one, h1, h2]

/-- C4 witness: extraction order instantiated — with no `PR created:`
line, extraction on a concrete text equals the GitHub-URL fallback. -/
theorem c4_extraction_order_and_no_match_witness :
    extract_pr_url (pyStr "plain text") = searchGithubPr (pyStr "plain text") :=
  c4_extraction_order_and_no_match.2.2.2.2.1 (pyStr "plain text")
    (by decide) (by decide)

end HireCrew
